import Mathlib

/-!
Verification of the k-loop code generator (`src/gpu/intel/jit/gemm/generator/pieces/k_loop.cxx`)
against its natural-language specification.

The file shallowly embeds the scheduling-relevant parts of `kLoop`,
`kLoopSingle` and their helper lambdas as executable Lean definitions and
proves the specification's testable properties about them.  Parts of the
loop sequencer itself (the timeline analyzer / phase materializer of
`loop_sequencer.hpp`) are not part of the source tree under study; where a
property depends on them, the corresponding definitions are modelled from
the specification and are marked as such in their doc comments.
-/

namespace KLoopVerif

/-- Error raised when a configuration cannot be compiled (the source aborts
through `stub()`; the spec calls this `ConfigurationError`). -/
inductive ConfigurationError where
  | mismatchedUnroll
  | incompatibleLookahead
  deriving DecidableEq, Repr

/-! ## C7: lookahead compatibility of buffer-sharing operands

Embedding of k_loop.cxx lines 285-296:

  int lookaheadALoad    = ka_loadMain * (A_copies - 1);
  int lookaheadBLoad    = kb_loadMain * (B_copies - 1);
  int lookaheadALoadRem = ka_loadRem  * (A_copies - 1);
  int lookaheadBLoadRem = kb_loadRem  * (B_copies - 1);
  if (slmA && slmB) {
      if (lookaheadALoad != lookaheadBLoad) stub();
      if (lookaheadALoadRem != lookaheadBLoadRem) stub();
      if (ka_loadMain != kb_loadMain && lookaheadALoad != lookaheadALoadRem) stub();
  }
-/

/-- Configuration fields of `kLoop` feeding the A/B load lookahead computation. -/
structure LAConfig where
  slmA : Bool
  slmB : Bool
  A_copies : Nat
  B_copies : Nat
  ka_loadMain : Nat
  kb_loadMain : Nat
  ka_loadRem : Nat
  kb_loadRem : Nat
  deriving DecidableEq, Repr

/-- Main-path A load lookahead, from k_loop.cxx line 285. -/
def lookaheadALoad (c : LAConfig) : Nat := c.ka_loadMain * (c.A_copies - 1)

/-- Main-path B load lookahead, from k_loop.cxx line 286. -/
def lookaheadBLoad (c : LAConfig) : Nat := c.kb_loadMain * (c.B_copies - 1)

/-- Remainder-path A load lookahead, from k_loop.cxx line 287. -/
def lookaheadALoadRem (c : LAConfig) : Nat := c.ka_loadRem * (c.A_copies - 1)

/-- Remainder-path B load lookahead, from k_loop.cxx line 288. -/
def lookaheadBLoadRem (c : LAConfig) : Nat := c.kb_loadRem * (c.B_copies - 1)

/-- Compatibility check for two SLM-sharing operands, from k_loop.cxx lines 292-296.
Each failing condition calls `stub()` in the source, aborting generation. -/
def checkSharedSLMLookahead (c : LAConfig) : Except ConfigurationError Unit :=
  if c.slmA && c.slmB then
    if lookaheadALoad c ≠ lookaheadBLoad c then .error .incompatibleLookahead
    else if lookaheadALoadRem c ≠ lookaheadBLoadRem c then .error .incompatibleLookahead
    else if c.ka_loadMain ≠ c.kb_loadMain ∧ lookaheadALoad c ≠ lookaheadALoadRem c then
      .error .incompatibleLookahead
    else .ok ()
  else .ok ()

/-! ## C8: kLoopSingle control flow

Embedding of k_loop.cxx lines 35-44:

  bool ok = kLoopSetup(problem, strategy, state);
  if (ok) {
      kLoop(type, problem, strategy, state);
      kLoopTeardown(problem, strategy, state);
  }
  return ok;
-/

/-- Sub-generators invoked by `kLoopSingle`. -/
inductive KLoopCall where
  | setup
  | loopBody
  | teardown
  deriving DecidableEq, Repr

/-- Embedding of `kLoopSingle` (k_loop.cxx lines 35-44).  The boolean input is
the success result of `kLoopSetup`; the output records the return value and
the trace of sub-generators invoked, in order. -/
def kLoopSingle (setupOk : Bool) : Bool × List KLoopCall :=
  if setupOk then (true, [.setup, .loopBody, .teardown])
  else (false, [.setup])

/-! ## C9: SLM store address increments

Embedding of k_loop.cxx lines 647-655:

  auto doSLMStoreInc = [&](Iteration h) {
      int kIncSLMStore = (slmBuffer(h) == slmBuffers - 1) ? -(slmBuffers - 1) : +1;
      kIncSLMStore *= unrollKSLM;
      ...
  };

with `slmBuffer(h) = (h / unrollKSLM) % slmBuffers` (line 327).
-/

/-- SLM buffer index for iteration `h`, from k_loop.cxx line 327. -/
def slmBuffer (unrollKSLM slmBuffers h : Nat) : Nat :=
  (h / unrollKSLM) % slmBuffers

/-- Increment applied to the SLM store addresses after the store for
iteration `h`, from k_loop.cxx lines 648-650. -/
def kIncSLMStore (unrollKSLM slmBuffers h : Nat) : Int :=
  (if slmBuffer unrollKSLM slmBuffers h = slmBuffers - 1
     then -((slmBuffers : Int) - 1)
     else 1) * unrollKSLM

/-- Accumulated SLM store address offset (in elements, relative to the first
buffer) just before the `n`-th SLM store block; block `n` stores at
iteration `h = n * unrollKSLM`. -/
def slmStoreAddr (unrollKSLM slmBuffers : Nat) : Nat → Int
  | 0 => 0
  | n + 1 => slmStoreAddr unrollKSLM slmBuffers n
             + kIncSLMStore unrollKSLM slmBuffers (n * unrollKSLM)

/-! ## C10: single-operand prezero / remask selection for integer A and B

Embedding of k_loop.cxx lines 504-514 and 795-808.
-/

/-- Configuration fields feeding the remainder prezero/remask selection. -/
structure RemaskConfig where
  slmA : Bool
  slmB : Bool
  readA : Bool
  readB : Bool
  ka_loadRem : Nat
  kb_loadRem : Nat
  minOPCount : Nat
  TaInteger : Bool
  TbInteger : Bool
  calcASums : Bool
  calcBSums : Bool
  unrollM : Nat
  unrollN : Nat
  needsRemaskA : Bool  -- result of needsRemask(Ta_load, true, ...) at line 795
  needsRemaskB : Bool  -- result of needsRemask(Tb_load, false, ...) at line 796
  deriving DecidableEq, Repr

/-- Initial value of `prezeroARem`, from k_loop.cxx line 505. -/
def prezeroARem0 (c : RemaskConfig) : Bool :=
  !c.slmA && (c.ka_loadRem < c.minOPCount) && c.readA

/-- Initial value of `prezeroBRem`, from k_loop.cxx line 506. -/
def prezeroBRem0 (c : RemaskConfig) : Bool :=
  !c.slmB && (c.kb_loadRem < c.minOPCount) && c.readB

/-- Condition guarding the one-operand reduction, from k_loop.cxx line 508. -/
def intNoSums (c : RemaskConfig) : Bool :=
  c.TaInteger && c.TbInteger && !c.calcASums && !c.calcBSums

/-- Final `(prezeroARem, prezeroBRem)` after the integer-A/B adjustment of
k_loop.cxx lines 508-514. -/
def prezeroRemFinal (c : RemaskConfig) : Bool × Bool :=
  let a := prezeroARem0 c
  let b := prezeroBRem0 c
  if a && b && intNoSums c then
    if c.unrollM ≥ c.unrollN then (false, b) else (a, false)
  else (a, b)

/-- Initial value of `remaskA`, from k_loop.cxx line 795. -/
def remaskA0 (c : RemaskConfig) : Bool :=
  !c.slmA && c.readA && (c.minOPCount > 1) && c.needsRemaskA

/-- Initial value of `remaskB`, from k_loop.cxx line 796. -/
def remaskB0 (c : RemaskConfig) : Bool :=
  !c.slmB && c.readB && (c.minOPCount > 1) && c.needsRemaskB

/-- Final `(remaskA, remaskB)` after the integer-A/B adjustment of
k_loop.cxx lines 798-808. -/
def remaskFinal (c : RemaskConfig) : Bool × Bool :=
  let a := remaskA0 c
  let b := remaskB0 c
  if intNoSums c then
    if a && b then
      if c.unrollM ≥ c.unrollN then (false, b) else (a, false)
    else if c.slmA || c.slmB then (false, false)
    else (a, b)
  else (a, b)

end KLoopVerif

namespace KLoopVerif

/-! ## Theorems for C7, C8, C9, C10 -/

/-- C7: when both operands use the staging buffer (slmA and slmB), generation
fails with a ConfigurationError exactly when the main-path lookaheads differ,
the remainder-path lookaheads differ, or the load periods differ while the
main and remainder lookaheads disagree. -/
theorem c7_shared_slm_lookahead_compat (c : LAConfig)
    (hA : c.slmA = true) (hB : c.slmB = true) :
    (∃ e, checkSharedSLMLookahead c = .error e) ↔
      (lookaheadALoad c ≠ lookaheadBLoad c
       ∨ lookaheadALoadRem c ≠ lookaheadBLoadRem c
       ∨ (c.ka_loadMain ≠ c.kb_loadMain ∧ lookaheadALoad c ≠ lookaheadALoadRem c)) := by
  unfold checkSharedSLMLookahead
  rw [hA, hB]
  simp only [Bool.and_self, if_true]
  split_ifs with h1 h2 h3
  · simpa using Or.inl h1
  · simpa using Or.inr (Or.inl h2)
  · simpa using Or.inr (Or.inr h3)
  · constructor
    · rintro ⟨e, he⟩
      cases he
    · rintro (h | h | h)
      · exact absurd h h1
      · exact absurd h h2
      · exact absurd h h3

/-- Witness for C7 at a concrete configuration: with A in SLM at period 2 with
2 copies and B in SLM at period 4 with 2 copies, the main-path lookaheads
(2 and 4) differ, so generation fails. -/
theorem c7_shared_slm_lookahead_compat_witness :
    let c : LAConfig :=
      { slmA := true, slmB := true, A_copies := 2, B_copies := 2,
        ka_loadMain := 2, kb_loadMain := 4, ka_loadRem := 1, kb_loadRem := 1 }
    ∃ e, checkSharedSLMLookahead c = .error e := by
  exact (c7_shared_slm_lookahead_compat _ rfl rfl).mpr (by decide)

/-- C8: kLoopSingle returns false when setup fails, invoking neither the loop
body nor the teardown in that case, and returns true exactly when setup
succeeded and the loop body plus teardown were generated. -/
theorem c8_kLoopSingle_setup_gate (setupOk : Bool) :
    (kLoopSingle setupOk).1 = setupOk
    ∧ (setupOk = false →
        KLoopCall.loopBody ∉ (kLoopSingle setupOk).2
        ∧ KLoopCall.teardown ∉ (kLoopSingle setupOk).2)
    ∧ ((kLoopSingle setupOk).1 = true ↔
        setupOk = true
        ∧ KLoopCall.loopBody ∈ (kLoopSingle setupOk).2
        ∧ KLoopCall.teardown ∈ (kLoopSingle setupOk).2) := by
  cases setupOk <;> simp [kLoopSingle]

/-- Witness for C8 at both concrete inputs: with failing setup the result is
false and no loop body is generated; with successful setup all three
sub-generators run. -/
theorem c8_kLoopSingle_setup_gate_witness :
    (kLoopSingle false).1 = false
    ∧ KLoopCall.loopBody ∉ (kLoopSingle false).2
    ∧ (kLoopSingle true).1 = true := by
  refine ⟨(c8_kLoopSingle_setup_gate false).1, ?_, (c8_kLoopSingle_setup_gate true).1⟩
  exact ((c8_kLoopSingle_setup_gate false).2.1 rfl).1

/-- Helper: successor of an iteration count sitting on the last buffer wraps to zero. -/
theorem mod_succ_last (n s : Nat) (hs : 0 < s) (h : n % s = s - 1) : (n + 1) % s = 0 := by
  have h1 := Nat.div_add_mod n s
  have h2 : n + 1 = s * (n / s) + s := by
    rw [h] at h1
    generalize s * (n / s) = t at h1 ⊢
    omega
  have h3 : n + 1 = s * (n / s + 1) := by rw [Nat.mul_add, Nat.mul_one]; exact h2
  rw [h3, Nat.mul_mod_right]

/-- Helper: successor of an iteration count not on the last buffer advances by one. -/
theorem mod_succ_not_last (n s : Nat) (hs : 0 < s) (h : n % s ≠ s - 1) :
    (n + 1) % s = n % s + 1 := by
  have hlt : n % s < s := Nat.mod_lt n hs
  have hlt2 : n % s + 1 < s := by omega
  conv_lhs => rw [Nat.add_mod]
  have h1 : 1 % s = 1 := Nat.mod_eq_of_lt (by omega)
  rw [h1, Nat.mod_eq_of_lt hlt2]

/-- Helper: the store increment for any iteration inside block `n` is the
difference of consecutive buffer-slot offsets, exposing the telescoping
structure of the SLM store address sequence. -/
theorem kIncSLMStore_block (u s : Nat) (hs : 0 < s) (d : Nat) (hd : d < u) (n : Nat) :
    kIncSLMStore u s (n * u + d) =
      (u : Int) * (((n + 1) % s : Nat) : Int) - (u : Int) * ((n % s : Nat) : Int) := by
  have hu : 0 < u := by omega
  have hdiv : (n * u + d) / u = n := by
    rw [Nat.mul_comm, Nat.mul_add_div hu, Nat.div_eq_of_lt hd, Nat.add_zero]
  unfold kIncSLMStore slmBuffer
  rw [hdiv]
  by_cases h : n % s = s - 1
  · rw [if_pos h, h, mod_succ_last n s hs h]
    have hcast : ((s - 1 : Nat) : Int) = (s : Int) - 1 := by
      have : 1 ≤ s := hs
      push_cast [this]
      ring
    rw [hcast]
    push_cast
    ring
  · rw [if_neg h, mod_succ_not_last n s hs h]
    push_cast
    ring

/-- Helper: the SLM store address before block `n` is `unrollKSLM * (n % slmBuffers)`. -/
theorem slmStoreAddr_eq (u s : Nat) (hs : 0 < s) (hu : 0 < u) (n : Nat) :
    slmStoreAddr u s n = (u : Int) * ((n % s : Nat) : Int) := by
  induction n with
  | zero => simp [slmStoreAddr]
  | succ n ih =>
    have hblk := kIncSLMStore_block u s hs 0 hu n
    rw [Nat.add_zero] at hblk
    unfold slmStoreAddr
    rw [ih, hblk]
    ring

/-- C9: the SLM store-address increment after the store for iteration `h` is
`+unrollKSLM` elements except when the store targeted the last buffer
(`slmBuffer h = slmBuffers - 1`), where it is `-(slmBuffers-1)*unrollKSLM`;
the net increment over any `slmBuffers` consecutive store blocks is zero, and
store addresses cycle through exactly the `slmBuffers` configured slots
forever (the address before block `n` is `unrollKSLM * (n % slmBuffers)`). -/
theorem c9_slm_store_increment_cycles (u s : Nat) (hs : 0 < s) (hu : 0 < u) :
    (∀ h, kIncSLMStore u s h =
        if slmBuffer u s h = s - 1 then -((s : Int) - 1) * u else (u : Int))
    ∧ (∀ i d, d < u →
        (Finset.range s).sum (fun j => kIncSLMStore u s ((i + j) * u + d)) = 0)
    ∧ (∀ n, slmStoreAddr u s n = (u : Int) * ((n % s : Nat) : Int)) := by
  refine ⟨?_, ?_, fun n => slmStoreAddr_eq u s hs hu n⟩
  · intro h
    unfold kIncSLMStore
    by_cases hb : slmBuffer u s h = s - 1
    · rw [if_pos hb, if_pos hb]
    · rw [if_neg hb, if_neg hb, one_mul]
  · intro i d hd
    have heq : (Finset.range s).sum (fun j => kIncSLMStore u s ((i + j) * u + d))
        = (Finset.range s).sum (fun j =>
            (u : Int) * (((i + (j + 1)) % s : Nat) : Int)
              - (u : Int) * (((i + j) % s : Nat) : Int)) :=
      Finset.sum_congr rfl (fun j _ => by
        have hb := kIncSLMStore_block u s hs d hd (i + j)
        simpa [Nat.add_assoc] using hb)
    have key : (Finset.range s).sum (fun j =>
            (u : Int) * (((i + (j + 1)) % s : Nat) : Int)
              - (u : Int) * (((i + j) % s : Nat) : Int))
        = (u : Int) * (((i + s) % s : Nat) : Int)
            - (u : Int) * (((i + 0) % s : Nat) : Int) :=
      Finset.sum_range_sub (fun k => (u : Int) * (((i + k) % s : Nat) : Int)) s
    rw [heq, key, Nat.add_mod_right, Nat.add_zero]
    ring

/-- Witness for C9 at concrete inputs: unrollKSLM = 8, slmBuffers = 3; the
increments over three consecutive store blocks starting at block 1 cancel,
and the address before block 5 is 8 * (5 % 3) = 16. -/
theorem c9_slm_store_increment_cycles_witness :
    (Finset.range 3).sum (fun j => kIncSLMStore 8 3 ((1 + j) * 8 + 2)) = 0
    ∧ slmStoreAddr 8 3 5 = 16 := by
  refine ⟨(c9_slm_store_increment_cycles 8 3 (by decide) (by decide)).2.1 1 2 (by decide), ?_⟩
  have h5 := (c9_slm_store_increment_cycles 8 3 (by decide) (by decide)).2.2 5
  rw [h5]
  decide

/-- C10: when A and B are both integer typed and no A/B sums are required,
remainder handling prezeroes and remasks at most one operand; when both
would otherwise be handled, A is disabled if unrollM >= unrollN and B
otherwise; and if one operand went through the staging buffer, register
remasking of both operands is disabled. -/
theorem c10_single_operand_remainder (c : RemaskConfig) (h : intNoSums c = true) :
    (¬((prezeroRemFinal c).1 = true ∧ (prezeroRemFinal c).2 = true))
    ∧ (¬((remaskFinal c).1 = true ∧ (remaskFinal c).2 = true))
    ∧ (prezeroARem0 c = true → prezeroBRem0 c = true →
        prezeroRemFinal c =
          if c.unrollM ≥ c.unrollN then (false, prezeroBRem0 c) else (prezeroARem0 c, false))
    ∧ (remaskA0 c = true → remaskB0 c = true →
        remaskFinal c =
          if c.unrollM ≥ c.unrollN then (false, remaskB0 c) else (remaskA0 c, false))
    ∧ ((c.slmA = true ∨ c.slmB = true) → remaskFinal c = (false, false)) := by
  refine ⟨?_, ?_, ?_, ?_, ?_⟩
  · cases ha : prezeroARem0 c <;> cases hb : prezeroBRem0 c <;>
      by_cases hm : c.unrollM ≥ c.unrollN <;>
      simp [prezeroRemFinal, h, ha, hb, hm]
  · cases ha : remaskA0 c <;> cases hb : remaskB0 c <;>
      by_cases hm : c.unrollM ≥ c.unrollN <;>
      by_cases hs : c.slmA = true ∨ c.slmB = true <;>
      simp [remaskFinal, h, ha, hb, hm, hs]
  · intro ha hb
    by_cases hm : c.unrollM ≥ c.unrollN <;> simp [prezeroRemFinal, h, ha, hb, hm]
  · intro ha hb
    by_cases hm : c.unrollM ≥ c.unrollN <;> simp [remaskFinal, h, ha, hb, hm]
  · intro hslm
    rcases hslm with hslm | hslm
    · have ha : remaskA0 c = false := by simp [remaskA0, hslm]
      simp [remaskFinal, h, ha, hslm]
    · have hb : remaskB0 c = false := by simp [remaskB0, hslm]
      simp [remaskFinal, h, hb, hslm]

/-- Witness for C10 at a concrete configuration: integer A/B, no sums, both
operands needing remask, unrollM = 16 >= unrollN = 8, so A's remasking is
disabled and only B remains active. -/
theorem c10_single_operand_remainder_witness :
    let c : RemaskConfig :=
      { slmA := false, slmB := false, readA := true, readB := true,
        ka_loadRem := 1, kb_loadRem := 1, minOPCount := 4,
        TaInteger := true, TbInteger := true, calcASums := false, calcBSums := false,
        unrollM := 16, unrollN := 8, needsRemaskA := true, needsRemaskB := true }
    remaskFinal c = (false, true) := by
  intro c
  have hiff := (c10_single_operand_remainder c (by decide)).2.2.2.1 (by decide) (by decide)
  simpa using hiff

/-! ## C5: short-loop entry restores the pre-loop state snapshot

Embedding of the `PhaseShortLoop` branch of the `NotifyPhase` callback
(k_loop.cxx lines 1474-1485) together with `resetForNewLoop`
(lines 1341-1349) and `resetKSLM` (lines 234-237):

  case LoopSequencer::PhaseShortLoop:
      ...
      remActiveA = remActiveB = remActiveSLM = false;
      resetForNewLoop();
      state = statePreLoop;
      ...

  auto resetForNewLoop = [&]() {
      resetKSLM();
      lastThresh = 0;
      haveA_lastRSWA = false;
      state.ra.safeRelease(barrierHeader);
      teardownRemasks();
      didForceActivateRemA = didForceActivateRemB = false;
  };

The fields below are the portions of the shared build state that the reset
path touches; `other` stands for every remaining field of `GEMMState`,
which the reset path leaves alone and the final snapshot assignment
overwrites wholesale.
-/

/-- Mutable build state fields touched by the short-loop reset path.
References such as `remActiveA` and `lastThresh` are bound into `state` at
k_loop.cxx lines 127-148, so they are fields here. -/
structure BuildState where
  remActiveA : Bool
  remActiveB : Bool
  remActiveSLM : Bool
  kSLMStorageValid : Bool
  kSLMAValid : Bool
  kSLMBValid : Bool
  lastThresh : Int
  barrierHeaderValid : Bool
  remaskSetup : Bool
  other : Nat
  deriving DecidableEq, Repr

/-- Local per-loop bookkeeping of `kLoop` that `resetForNewLoop` clears
(k_loop.cxx lines 463, 534, 1345, 1348). -/
structure KLoopLocals where
  haveA_lastRSWA : Bool
  didForceActivateRemA : Bool
  didForceActivateRemB : Bool
  deriving DecidableEq, Repr

/-- Embedding of `resetKSLM` (k_loop.cxx lines 234-237): releases the kSLM
storage register and invalidates kSLMA/kSLMB. -/
def resetKSLM (st : BuildState) : BuildState :=
  { st with kSLMStorageValid := false, kSLMAValid := false, kSLMBValid := false }

/-- Embedding of `resetForNewLoop` (k_loop.cxx lines 1341-1349). -/
def resetForNewLoop (st : BuildState) (loc : KLoopLocals) : BuildState × KLoopLocals :=
  let st1 := resetKSLM st
  let st2 := { st1 with lastThresh := 0 }
  let loc1 := { loc with haveA_lastRSWA := false }
  let st3 := { st2 with barrierHeaderValid := false }
  let st4 := { st3 with remaskSetup := false }
  let loc2 := { loc1 with didForceActivateRemA := false, didForceActivateRemB := false }
  (st4, loc2)

/-- Embedding of the state-mutating steps of the `PhaseShortLoop` branch of
the `NotifyPhase` callback (k_loop.cxx lines 1480-1482): clear the
remainder-active flags, run `resetForNewLoop`, then assign the whole build
state from the pre-loop snapshot. -/
def phaseShortLoopNotify (statePreLoop st : BuildState) (loc : KLoopLocals) :
    BuildState × KLoopLocals :=
  let st1 := { st with remActiveA := false, remActiveB := false, remActiveSLM := false }
  let p := resetForNewLoop st1 loc
  (statePreLoop, p.2)

/-- C5: on entering the ShortLoop phase the build state is restored to the
pre-loop snapshot (every field of the resulting state equals the snapshot),
and the per-loop bookkeeping is reset: kSLM storage released, remask setup
torn down, barrier header released, forced-remainder flags and the RSWA
tracker cleared. -/
theorem c5_short_loop_restores_pre_loop_state
    (statePreLoop st : BuildState) (loc : KLoopLocals) :
    (phaseShortLoopNotify statePreLoop st loc).1 = statePreLoop
    ∧ (phaseShortLoopNotify statePreLoop st loc).2 =
        { haveA_lastRSWA := false, didForceActivateRemA := false,
          didForceActivateRemB := false }
    ∧ ((resetForNewLoop st loc).1.kSLMStorageValid = false
        ∧ (resetForNewLoop st loc).1.kSLMAValid = false
        ∧ (resetForNewLoop st loc).1.kSLMBValid = false
        ∧ (resetForNewLoop st loc).1.remaskSetup = false
        ∧ (resetForNewLoop st loc).1.barrierHeaderValid = false
        ∧ (resetForNewLoop st loc).1.lastThresh = 0) := by
  refine ⟨rfl, rfl, rfl, rfl, rfl, rfl, rfl, rfl⟩

/-! ## C6: barrier placement around depth-1 SLM stores

Embedding of the emitted instruction stream of `doSLMStore`
(k_loop.cxx lines 1227-1268), `slm1x2xFencedBarrier` (lines 1175-1189)
and `kLoopBarrier` (lines 191-229).  Register allocation and barrier-header
setup are bookkeeping that emits no fence, barrier or store instruction and
is not represented in the stream.
-/

/-- Barrier flavors passed to `kLoopBarrier` (KBarrierType in the source). -/
inductive KBarrierType where
  | Normal
  | Signal
  | Wait
  deriving DecidableEq, Repr

/-- Instructions relevant to the SLM store/synchronization stream. -/
inductive Instr where
  | slmfence
  | fencewait
  | barriermsg
  | barrierwait
  | syncbar
  | wrdep
  | storeA
  | storeB
  | accsum
  deriving DecidableEq, Repr

/-- Configuration fields feeding the SLM store/barrier emission. -/
structure SLMStoreConfig where
  hwBeforeXeHPG : Bool   -- hw < HW::XeHPG at line 1180
  strictFence : Bool
  slmFenceWARWA : Bool
  A_copies : Nat
  B_copies : Nat
  slmA : Bool
  slmB : Bool
  slmASums : Bool
  slmBSums : Bool
  slmBuffers : Nat
  nbM : Bool
  nbN : Bool
  deriving DecidableEq, Repr

/-- Embedding of `kLoopBarrier` (k_loop.cxx lines 191-229): the sequence of
fence/barrier instructions emitted for one barrier of the given type. -/
def kLoopBarrier (nbM nbN withSLMFence : Bool) (type : KBarrierType) : List Instr :=
  (if withSLMFence && type == .Wait then [.slmfence, .fencewait] else [])
  ++ (if !nbM && !nbN then
        (if type ≠ .Wait then
          (if withSLMFence then [.slmfence, .fencewait] else []) ++ [.barriermsg]
         else [])
        ++ (if type ≠ .Signal then [.barrierwait] else [])
      else
        (if type ≠ .Wait then
          (if withSLMFence then [.slmfence, .fencewait] else [])
          ++ (if nbM then [.barriermsg] else [])
          ++ (if nbN then [.barriermsg] else [])
         else [])
        ++ (if type ≠ .Signal then
              (if nbM then [.syncbar] else []) ++ (if nbN then [.syncbar] else [])
            else []))

/-- Embedding of `slm1x2xFencedBarrier` (k_loop.cxx lines 1175-1189). -/
def slm1x2xFencedBarrier (c : SLMStoreConfig) : List Instr :=
  if c.hwBeforeXeHPG && !c.strictFence then
    kLoopBarrier c.nbM c.nbN false .Normal
  else if (c.A_copies > 2 ∨ c.B_copies > 2) ∧ c.slmFenceWARWA = false then
    kLoopBarrier c.nbM c.nbN true .Normal
  else
    (if c.slmA && c.A_copies > 1 then [.wrdep] else [])
    ++ (if c.slmB && c.B_copies > 1 then [.wrdep] else [])
    ++ kLoopBarrier c.nbM c.nbN false .Normal

/-- Embedding of `doSLMStore` (k_loop.cxx lines 1227-1268): the instruction
stream emitted for one SLM store event, for staging-buffer depths 1-4. -/
def doSLMStore (c : SLMStoreConfig) : List Instr :=
  if !c.slmA && !c.slmB then []
  else
    (match c.slmBuffers with
      | 1 => slm1x2xFencedBarrier c
      | _ => [])
    ++ (if c.slmA then [.storeA] else [])
    ++ (if c.slmB then [.storeB] else [])
    ++ (if c.slmASums then [.accsum] else [])
    ++ (if c.slmBSums then [.accsum] else [])
    ++ (match c.slmBuffers with
        | 1 => kLoopBarrier c.nbM c.nbN true .Normal
        | 2 => [.slmfence, .fencewait]
        | 3 => (if c.slmFenceWARWA then
                  (if c.slmA && c.A_copies > 1 then [.wrdep] else [])
                  ++ (if c.slmB && c.B_copies > 1 then [.wrdep] else [])
                else [])
               ++ kLoopBarrier c.nbM c.nbN true .Signal
        | _ => [])

/-- True for the store instructions of the stream. -/
def isStore : Instr → Bool
  | .storeA => true
  | .storeB => true
  | _ => false

/-- True for a barrier signal message. -/
def isBarrierMsg : Instr → Bool
  | .barriermsg => true
  | _ => false

/-- True for any barrier-related instruction (signal, wait, or named-barrier sync). -/
def isBarrierInstr : Instr → Bool
  | .barriermsg => true
  | .barrierwait => true
  | .syncbar => true
  | _ => false

/-- Number of stores in a stream. -/
def storeCount (l : List Instr) : Nat := l.countP isStore

/-- Number of barrier signal messages in a stream. -/
def barrierMsgCount (l : List Instr) : Nat := l.countP isBarrierMsg

/-- Number of barrier-related instructions in a stream. -/
def barrierInstrCount (l : List Instr) : Nat := l.countP isBarrierInstr

/-- Suffix of a stream after its first store instruction. -/
def afterFirstStore : List Instr → List Instr
  | [] => []
  | i :: t => if isStore i then t else afterFirstStore t

/-- Longest store-free initial segment of a stream. -/
def uptoNextStore : List Instr → List Instr
  | [] => []
  | i :: t => if isStore i then [] else i :: uptoNextStore t

/-- Segment of a stream strictly between its first store and the next store. -/
def betweenStores (l : List Instr) : List Instr := uptoNextStore (afterFirstStore l)

/-- Helper: dropping through a store-free prefix reaches the first store. -/
theorem afterFirstStore_append (l1 l2 : List Instr) (h : ∀ i ∈ l1, isStore i = false)
    (a : Instr) (ha : isStore a = true) :
    afterFirstStore (l1 ++ a :: l2) = l2 := by
  induction l1 with
  | nil => simp [afterFirstStore, ha]
  | cons x t ih =>
    have hx : isStore x = false := h x (by simp)
    simp only [List.cons_append, afterFirstStore, hx, if_false, Bool.false_eq_true]
    exact ih (fun i hi => h i (by simp [hi]))

/-- Helper: a store-free prefix is returned whole by `uptoNextStore`. -/
theorem uptoNextStore_append (l1 l2 : List Instr) (h : ∀ i ∈ l1, isStore i = false)
    (a : Instr) (ha : isStore a = true) :
    uptoNextStore (l1 ++ a :: l2) = l1 := by
  induction l1 with
  | nil => simp [uptoNextStore, ha]
  | cons x t ih =>
    have hx : isStore x = false := h x (by simp)
    simp only [List.cons_append, uptoNextStore, hx, if_false, Bool.false_eq_true,
      List.cons.injEq, true_and]
    exact ih (fun i hi => h i (by simp [hi]))

/-- Helper: one unnamed `kLoopBarrier` emits one barrier signal unless it is a
pure wait, and never emits a store. -/
theorem kLoopBarrier_unnamed_msgCount (f : Bool) (t : KBarrierType) :
    barrierMsgCount (kLoopBarrier false false f t) = (if t = .Wait then 0 else 1)
    ∧ ∀ i ∈ kLoopBarrier false false f t, isStore i = false := by
  cases f <;> cases t <;> exact ⟨by decide, by decide⟩

/-- Helper: a conditional wrdep fragment holds no barrier signal and no store. -/
theorem wrdep_fragment_counts (p : Prop) [Decidable p] :
    barrierMsgCount (if p then [Instr.wrdep] else []) = 0
    ∧ ∀ i ∈ (if p then [Instr.wrdep] else []), isStore i = false := by
  by_cases h : p <;> simp only [h, if_true, if_false] <;> exact ⟨by decide, by decide⟩

/-- Helper: a conditional accsum fragment holds no barrier signal and no store. -/
theorem accsum_fragment_counts (b : Bool) :
    barrierMsgCount (if b = true then [Instr.accsum] else []) = 0
    ∧ ∀ i ∈ (if b = true then [Instr.accsum] else []), isStore i = false := by
  cases b <;> exact ⟨by decide, by decide⟩

/-- Helper: `slm1x2xFencedBarrier` emits exactly one barrier signal and no
store, for unnamed barriers. -/
theorem slm1x2x_counts (c : SLMStoreConfig) (hm : c.nbM = false) (hn : c.nbN = false) :
    barrierMsgCount (slm1x2xFencedBarrier c) = 1
    ∧ ∀ i ∈ slm1x2xFencedBarrier c, isStore i = false := by
  unfold slm1x2xFencedBarrier
  rw [hm, hn]
  split_ifs <;> exact ⟨by decide, by decide⟩

/-- Concrete depth-1 configuration used to test C6: A staged through SLM,
single copies, pre-XeHPG hardware, unnamed barriers. -/
def slmCfg0 : SLMStoreConfig :=
  { hwBeforeXeHPG := true, strictFence := false, slmFenceWARWA := false,
    A_copies := 1, B_copies := 1, slmA := true, slmB := false,
    slmASums := false, slmBSums := false, slmBuffers := 1,
    nbM := false, nbN := false }

/-- C6 counterexample: at staging depth 1, the stream between two consecutive
stores to the single buffer holds two barrier signal messages (and four
barrier-related instructions), not exactly one barrier instruction as the
claim states. -/
theorem c6_counterexample_two_barriers_not_one :
    ¬(barrierMsgCount (betweenStores (doSLMStore slmCfg0 ++ doSLMStore slmCfg0)) = 1
      ∨ barrierInstrCount (betweenStores (doSLMStore slmCfg0 ++ doSLMStore slmCfg0)) = 1) := by
  decide

/-- C6 amended: at staging-buffer depth 1 with unnamed barriers, each SLM
store event emits exactly one store, a barrier signal precedes the store and
another (fenced) barrier follows it, so exactly two barrier signal messages
appear in the stream between two consecutive stores targeting the single
buffer: the release barrier after the first store and the protecting barrier
before the overwrite. -/
theorem c6_amended_depth1_barriers (c : SLMStoreConfig)
    (hb : c.slmBuffers = 1) (ha : c.slmA = true) (hbB : c.slmB = false)
    (hm : c.nbM = false) (hn : c.nbN = false) :
    storeCount (doSLMStore c) = 1
    ∧ (∃ l1 l2, doSLMStore c = l1 ++ Instr.storeA :: l2
        ∧ barrierMsgCount l1 = 1 ∧ barrierMsgCount l2 = 1)
    ∧ barrierMsgCount (betweenStores (doSLMStore c ++ doSLMStore c)) = 2 := by
  have hS : doSLMStore c = slm1x2xFencedBarrier c
      ++ Instr.storeA ::
        ((if c.slmASums = true then [Instr.accsum] else [])
          ++ (if c.slmBSums = true then [Instr.accsum] else [])
          ++ kLoopBarrier false false true .Normal) := by
    unfold doSLMStore
    rw [ha, hbB, hb, hm, hn]
    simp
  set P := slm1x2xFencedBarrier c with hP
  set S := (if c.slmASums = true then [Instr.accsum] else [])
      ++ (if c.slmBSums = true then [Instr.accsum] else [])
      ++ kLoopBarrier false false true .Normal with hSdef
  have hPmsg : barrierMsgCount P = 1 := (slm1x2x_counts c hm hn).1
  have hPfree : ∀ i ∈ P, isStore i = false := (slm1x2x_counts c hm hn).2
  have hSmsg : barrierMsgCount S = 1 := by
    rw [hSdef]
    simp only [barrierMsgCount, List.countP_append]
    have h1 := (accsum_fragment_counts c.slmASums).1
    have h2 := (accsum_fragment_counts c.slmBSums).1
    have h3 : barrierMsgCount (kLoopBarrier false false true .Normal) = 1 := by decide
    simp only [barrierMsgCount] at h1 h2 h3
    omega
  have hSfree : ∀ i ∈ S, isStore i = false := by
    rw [hSdef]
    intro i hi
    simp only [List.mem_append] at hi
    rcases hi with (hi | hi) | hi
    · exact (accsum_fragment_counts c.slmASums).2 i hi
    · exact (accsum_fragment_counts c.slmBSums).2 i hi
    · revert hi
      revert i
      decide
  refine ⟨?_, ⟨P, S, hS, hPmsg, hSmsg⟩, ?_⟩
  · rw [hS]
    simp only [storeCount, List.countP_append, List.countP_cons]
    have hP0 : P.countP isStore = 0 := List.countP_eq_zero.mpr (by
      intro i hi
      simpa using hPfree i hi)
    have hS0 : S.countP isStore = 0 := List.countP_eq_zero.mpr (by
      intro i hi
      simpa using hSfree i hi)
    simp only [storeCount, List.countP_append] at hP0 hS0
    simp [hP0, hS0, isStore]
  · have hstream : doSLMStore c ++ doSLMStore c
        = P ++ Instr.storeA :: (S ++ (P ++ Instr.storeA :: S)) := by
      rw [hS]
      simp
    rw [hstream]
    unfold betweenStores
    rw [afterFirstStore_append P _ hPfree Instr.storeA (by decide)]
    have hreshape : S ++ (P ++ Instr.storeA :: S) = (S ++ P) ++ Instr.storeA :: S := by
      simp
    rw [hreshape,
      uptoNextStore_append (S ++ P) S (by
        intro i hi
        rcases List.mem_append.mp hi with hi | hi
        · exact hSfree i hi
        · exact hPfree i hi) Instr.storeA (by decide)]
    simp only [barrierMsgCount, List.countP_append] at hSmsg hPmsg ⊢
    omega

/-- Witness for the amended C6 at the concrete configuration `slmCfg0`. -/
theorem c6_amended_depth1_barriers_witness :
    storeCount (doSLMStore slmCfg0) = 1
    ∧ barrierMsgCount (betweenStores (doSLMStore slmCfg0 ++ doSLMStore slmCfg0)) = 2 := by
  have h := c6_amended_depth1_barriers slmCfg0 rfl rfl rfl rfl rfl
  exact ⟨h.1, h.2.2⟩

/-! ## C2: unroll mismatch aborts generation

Embedding of the pre-analysis emission of `kLoop` (k_loop.cxx lines 239-270)
and of the consistency check

  ls.analyze();
  if (ls.getUnroll() != unrollK) stub();

(lines 1311-1313).  `ls.analyze()`/`ls.getUnroll()` live in
loop_sequencer.hpp, which is not among the sources under study, so the
computed unroll is modelled from the spec (section 4.2: least common
multiple of all declared periods); the dummy task of k_loop.cxx line 359
always contributes period unrollK.
-/

/-- Instruction markers for `kLoop` emission, at call-site granularity; each
marker stands for at least one emitted instruction. -/
inductive KInstr where
  | movK        -- mov(1, state.K, kInput), line 252
  | zeroAs      -- zeroMatrix(state.As_regs), line 256
  | zeroBs      -- zeroMatrix(state.Bs_regs), line 257
  | zeroAcc     -- accumulator-clearing movs, lines 261-262
  | zeroC       -- zeroMatrix(state.C_regs[buf]), lines 264-265
  | betaNotify  -- gemmFusedBetaNotifyCompletion, line 269
  | loopInstr   -- any instruction emitted by ls.materialize(), line 1506
  deriving DecidableEq, Repr

/-- Configuration fields of `kLoop` feeding pre-analysis emission and the
unroll consistency check. -/
structure GenConfig where
  unrollK : Nat
  eventPeriods : List Nat
  saveK : Bool
  incomingK : Bool
  firstKLoopSegment : Bool
  calcASums : Bool
  calcBSums : Bool
  cLoadAhead : Bool
  registerOutputBeta1 : Bool  -- strategy.registerOutput() && problem.beta1(), line 260
  C_accCount : Nat
  C_buffers : Nat
  fuseBetaNotify : Bool       -- strategy.fuseBeta && !strategy.altFusedBeta, line 268
  deriving DecidableEq, Repr

/-- Instructions `kLoop` emits before `ls.analyze()` runs, from k_loop.cxx
lines 248-270 (loop counter initialization and first-segment A/B-sum and C
zeroing). -/
def preAnalyzeInstrs (c : GenConfig) : List KInstr :=
  (if c.saveK && !c.incomingK then [.movK] else [])
  ++ (if c.firstKLoopSegment then
        (if c.calcASums then [.zeroAs] else [])
        ++ (if c.calcBSums then [.zeroBs] else [])
        ++ (if !c.cLoadAhead && !c.registerOutputBeta1 then
              List.replicate ((c.C_accCount + 1) / 2) .zeroAcc
              ++ List.replicate c.C_buffers .zeroC
            else [])
        ++ (if c.fuseBetaNotify then [.betaNotify] else [])
      else [])

/-- Modelled from the spec: the unrolled block length computed by
`ls.analyze()` as the least common multiple of all declared event periods
(spec section 4.2); loop_sequencer.hpp is not among the sources under study.
The dummy task of k_loop.cxx line 359 registers period unrollK, so unrollK
always participates in the lcm. -/
def lsGetUnroll (c : GenConfig) : Nat :=
  c.eventPeriods.foldl Nat.lcm c.unrollK

/-- Embedding of `kLoop` generation up to the unroll consistency check
(k_loop.cxx lines 248-270 and 1311-1313): the emitted instructions and the
outcome.  `body` stands for whatever `ls.materialize()` would emit on the
success path. -/
def kLoopGenerate (c : GenConfig) (body : List KInstr) :
    List KInstr × Except ConfigurationError Unit :=
  let pre := preAnalyzeInstrs c
  if lsGetUnroll c ≠ c.unrollK then (pre, .error .mismatchedUnroll)
  else (pre ++ body, .ok ())

/-- Concrete configuration used against C2: an event of period 3 against
unrollK = 4 (lcm 12), with the loop counter needing a save. -/
def genCfg0 : GenConfig :=
  { unrollK := 4, eventPeriods := [3], saveK := true, incomingK := false,
    firstKLoopSegment := true, calcASums := true, calcBSums := false,
    cLoadAhead := false, registerOutputBeta1 := false,
    C_accCount := 0, C_buffers := 1, fuseBetaNotify := false }

/-- C2 counterexample: at `genCfg0` the computed block length (12) disagrees
with unrollK (4) and generation fails, but the emitted instruction list at
the point of failure is not empty: the loop-counter move and the A-sum and C
zeroing of k_loop.cxx lines 248-270 have already been emitted. -/
theorem c2_counterexample_nonzero_emission :
    lsGetUnroll genCfg0 ≠ genCfg0.unrollK
    ∧ (kLoopGenerate genCfg0 []).2 = .error .mismatchedUnroll
    ∧ (kLoopGenerate genCfg0 []).1.length ≠ 0 :=
  ⟨by decide, rfl, by decide⟩

/-- C2 amended: if the computed block length disagrees with unrollK,
generation fails with a ConfigurationError before any loop instruction is
materialized — the emitted stream at the failure point is exactly the
pre-loop initialization (counter move, A/B-sum and C zeroing) and holds no
materialized loop instruction; it need not be empty. -/
theorem c2_amended_mismatch_aborts (c : GenConfig) (body : List KInstr)
    (h : lsGetUnroll c ≠ c.unrollK) :
    (kLoopGenerate c body).2 = .error .mismatchedUnroll
    ∧ (kLoopGenerate c body).1 = preAnalyzeInstrs c
    ∧ KInstr.loopInstr ∉ (kLoopGenerate c body).1 := by
  have hpre : KInstr.loopInstr ∉ preAnalyzeInstrs c := by
    unfold preAnalyzeInstrs
    split_ifs <;> simp [List.mem_replicate]
  unfold kLoopGenerate
  rw [if_pos h]
  exact ⟨rfl, rfl, hpre⟩

/-- Witness for the amended C2 at the concrete configuration `genCfg0`. -/
theorem c2_amended_mismatch_aborts_witness :
    (kLoopGenerate genCfg0 [KInstr.loopInstr]).2 = .error .mismatchedUnroll
    ∧ KInstr.loopInstr ∉ (kLoopGenerate genCfg0 [KInstr.loopInstr]).1 := by
  have h := c2_amended_mismatch_aborts genCfg0 [KInstr.loopInstr] (by decide)
  exact ⟨h.1, h.2.2⟩

/-! ## C3: lookahead signs of the prefetch and outer-product events

Embedding of the lookahead computations of k_loop.cxx lines 275-306 and of
the event requirements

  auto reqPFA = every(ka_pfStride) | duration(aPFDuration)
              | lookahead(strategy.prefetchA + lookaheadAGlobalLoad);   (lines 366-368)
  auto reqOP  = every(minOPCount) | lookahead(-(minOPCount - 1));       (lines 1033-1034)
-/

/-- SLM-buffer lookahead factor, from the switch at k_loop.cxx lines 276-283;
`none` models the `stub()` arm for slmBuffers > 4. -/
def slmBufferLA (slmBuffers : Nat) : Option Nat :=
  match slmBuffers with
  | 0 => some 0
  | 1 => some 0
  | 2 => some 1
  | 3 => some 1
  | 4 => some 2
  | _ => none

/-- Configuration fields feeding the A prefetch lookahead. -/
structure PFLAConfig where
  base : LAConfig
  slmCopies : Nat
  slmBuffers : Nat
  unrollKSLM : Nat
  prefetchA : Nat
  deriving DecidableEq, Repr

/-- SLM load lookahead, from k_loop.cxx line 289. -/
def lookaheadSLMLoad (c : PFLAConfig) : Nat :=
  c.unrollKSLM * (c.slmCopies - 1) + c.unrollKSLM - 1

/-- SLM store lookahead, from k_loop.cxx line 290 (`none` when the buffer
count is unsupported). -/
def lookaheadSLMStoreOpt (c : PFLAConfig) : Option Nat :=
  (slmBufferLA c.slmBuffers).map (fun la => c.unrollKSLM * la + 1)

/-- SLM reload lookahead, from k_loop.cxx line 298. -/
def lookaheadSLMReload (c : PFLAConfig) : Nat :=
  if c.base.slmA then lookaheadALoad c.base else lookaheadBLoad c.base

/-- Global A load lookahead, from k_loop.cxx lines 302-304. -/
def lookaheadAGlobalLoad (c : PFLAConfig) : Option Nat :=
  if c.base.slmA then
    (lookaheadSLMStoreOpt c).map
      (fun st => lookaheadSLMLoad c + st + lookaheadSLMReload c)
  else some (lookaheadALoad c.base)

/-- Lookahead declared for the A prefetch event `reqPFA`, from k_loop.cxx
line 368: `strategy.prefetchA + lookaheadAGlobalLoad`. -/
def reqPFA_lookahead (c : PFLAConfig) : Option Int :=
  (lookaheadAGlobalLoad c).map (fun g => (c.prefetchA : Int) + g)

/-- Lookahead declared for the outer-product event `reqOP`, from k_loop.cxx
line 1034: `-(minOPCount - 1)`. -/
def reqOP_lookahead (minOPCount : Nat) : Int :=
  -((minOPCount : Int) - 1)

/-- Modelled from the spec (section 4.2), with the sign convention fixed to
match the source usage of loop_sequencer.hpp (which is not among the sources
under study): the occurrence for logical iteration `h` of an event with
lookahead `la` is emitted at stream position `h - la`, so a positive
lookahead issues work ahead of its logical iteration and a negative
lookahead defers it. -/
def emitPosition (h la : Int) : Int := h - la

/-- Concrete prefetch configuration used against C3: no SLM staging, a single
A copy, prefetch distance 1. -/
def pfCfg0 : PFLAConfig :=
  { base := { slmA := false, slmB := false, A_copies := 1, B_copies := 1,
              ka_loadMain := 4, kb_loadMain := 4, ka_loadRem := 1, kb_loadRem := 1 },
    slmCopies := 1, slmBuffers := 0, unrollKSLM := 4, prefetchA := 1 }

/-- C3 counterexample: at `pfCfg0` the A prefetch event's declared lookahead
is +1, not negative, and with minOPCount = 4 the outer-product event's
declared lookahead is -3, not positive — the claimed sign convention fails
on both cited events. -/
theorem c3_counterexample_lookahead_signs :
    reqPFA_lookahead pfCfg0 = some 1
    ∧ ¬(∃ la, reqPFA_lookahead pfCfg0 = some la ∧ la < 0)
    ∧ reqOP_lookahead 4 = -3
    ∧ ¬(0 < reqOP_lookahead 4) := by
  refine ⟨rfl, ?_, by decide, by decide⟩
  rintro ⟨la, hla, hneg⟩
  have : la = 1 := by
    have h1 : reqPFA_lookahead pfCfg0 = some 1 := rfl
    rw [h1] at hla
    exact (Option.some.injEq _ _ ▸ hla).symm
  omega

/-- C3 amended: the sign convention is the reverse of the claim — a positive
lookahead causes occurrences to be emitted before their logical iteration
and a negative lookahead defers them; accordingly the operand prefetch
(issued ahead of its logical use) carries positive lookahead whenever the
prefetch distance is positive, and the trailing outer product carries
non-positive lookahead `-(minOPCount - 1)`, deferred by minOPCount - 1
iterations. -/
theorem c3_amended_lookahead_signs (c : PFLAConfig) (h : Int) (m : Nat)
    (hpf : 0 < c.prefetchA) (hm : 1 ≤ m) :
    (∀ la, reqPFA_lookahead c = some la → 0 < la ∧ emitPosition h la < h)
    ∧ reqOP_lookahead m ≤ 0
    ∧ h ≤ emitPosition h (reqOP_lookahead m)
    ∧ emitPosition h (reqOP_lookahead m) = h + (m - 1 : Nat) := by
  refine ⟨?_, ?_, ?_, ?_⟩
  · intro la hla
    unfold reqPFA_lookahead at hla
    cases hG : lookaheadAGlobalLoad c with
    | none =>
      rw [hG] at hla
      exact absurd hla (by simp)
    | some g =>
      rw [hG] at hla
      have hsome : some ((c.prefetchA : Int) + g) = some la := hla
      have hla2 : (c.prefetchA : Int) + g = la := Option.some.inj hsome
      have h1 : (1 : Int) ≤ c.prefetchA := by exact_mod_cast hpf
      have hg0 : (0 : Int) ≤ (g : Int) := Int.natCast_nonneg g
      exact ⟨by omega, by unfold emitPosition; omega⟩
  · unfold reqOP_lookahead
    omega
  · unfold emitPosition reqOP_lookahead
    omega
  · unfold emitPosition reqOP_lookahead
    omega

/-- Witness for the amended C3 at `pfCfg0`, h = 10, minOPCount = 4: the
prefetch occurrence for iteration 10 is emitted at position 9 and the
outer-product occurrence at position 13. -/
theorem c3_amended_lookahead_signs_witness :
    (∀ la, reqPFA_lookahead pfCfg0 = some la → 0 < la ∧ emitPosition 10 la < 10)
    ∧ reqOP_lookahead 4 ≤ 0
    ∧ (10 : Int) ≤ emitPosition 10 (reqOP_lookahead 4) := by
  have h := c3_amended_lookahead_signs pfCfg0 10 4 (by decide) (by decide)
  exact ⟨h.1, h.2.1, h.2.2.1⟩

/-! ## C4: the counter decrement fires once per MainLoop block and nowhere else

Embedding of the loop-check event registration (k_loop.cxx lines 605-645):

  auto reqLoopCheck = every(unrollK) | duration(unrollK);
  ls.schedule_if(reqLoopCheck,
      [&](Iteration h) { add(1 | gt | f0[0], state.K, state.K, -unrollK); ... },
      [&](Iteration h) { return (curPhase == LoopSequencer::PhaseMainLoop); });

The phase walk of the materializer comes from loop_sequencer.hpp, which is
not among the sources under study, and is modelled from the spec
(sections 3, 4.3).
-/

/-- Execution phases of the loop sequencer, in their fixed total order
(spec section 3). -/
inductive Phase where
  | Warmup
  | MainLoop
  | MainPathEnd
  | Cooldown
  | ShortLoop
  | ShortLoopEnd
  | Remainder
  deriving DecidableEq, Repr

/-- Generation-time guard of the loop-check event, from k_loop.cxx
lines 642-644: the decrement is emitted only while the current phase is
the main loop. -/
def loopCheckEnabled (curPhase : Phase) : Bool := curPhase == .MainLoop

/-- Modelled from the spec (section 4.2): block-relative offsets at which an
event of period `p` occurs inside one unrolled block of length `u` — one
occurrence per period-aligned offset. -/
def blockOffsets (p u : Nat) : List Nat :=
  (List.range u).filter (fun off => off % p == 0)

/-- Modelled from the spec (sections 3, 4.3): the sequence of phase-tagged
blocks the materializer walks, with `nMain` taken MainLoop blocks; every
other phase is walked once as straight-line code. -/
def materializePhases (nMain : Nat) : List Phase :=
  [.Warmup] ++ List.replicate nMain .MainLoop
    ++ [.MainPathEnd, .Cooldown, .ShortLoop, .ShortLoopEnd, .Remainder]

/-- Modelled from the spec: the phase tags of all emitted counter decrements
across a materialization with unroll `u` and `nMain` taken MainLoop blocks;
in each walked block, each occurrence of the period-`u` loop-check event is
emitted only if the source's phase guard passes. -/
def emittedDecrements (u nMain : Nat) : List Phase :=
  (materializePhases nMain).flatMap (fun ph =>
    if loopCheckEnabled ph then (blockOffsets u u).map (fun _ => ph) else [])

/-- Helper: inside one block of length `u`, a period-`u` event occurs exactly
once, at offset 0. -/
theorem blockOffsets_self (u : Nat) (hu : 0 < u) : blockOffsets u u = [0] := by
  obtain ⟨n, rfl⟩ : ∃ n, u = n + 1 := ⟨u - 1, by omega⟩
  unfold blockOffsets
  rw [List.range_succ_eq_map]
  rw [List.filter_cons]
  simp only [Nat.zero_mod, beq_self_eq_true, if_true]
  congr 1
  rw [List.filter_map]
  have hnil : (List.range n).filter (fun k => (Nat.succ k) % (n + 1) == 0) = [] := by
    rw [List.filter_eq_nil_iff]
    intro k hk
    have hk' : k < n := List.mem_range.mp hk
    have : (k + 1) % (n + 1) = k + 1 := Nat.mod_eq_of_lt (by omega)
    simp [Nat.succ_eq_add_one, this]
  rw [Function.comp_def]
  simp only [Nat.succ_eq_add_one] at hnil
  rw [hnil]
  simp

/-- Helper: length of a flatMap over replicated elements. -/
theorem replicate_flatMap_length {α β : Type} (n : Nat) (a : α) (f : α → List β) :
    ((List.replicate n a).flatMap f).length = n * (f a).length := by
  induction n with
  | zero => simp
  | succ n ih =>
    rw [List.replicate_succ]
    simp only [List.flatMap_cons, List.length_append, ih]
    ring

/-- C4: the counter decrement (with its back-edge comparison flag) appears
exactly once in each taken MainLoop block and never in any other phase:
the period-unrollK loop-check event has exactly one occurrence per block,
the number of emitted decrements equals the number of taken MainLoop blocks,
every emitted decrement is tagged MainLoop, and the source's phase guard
rejects Warmup, Cooldown, ShortLoop and Remainder. -/
theorem c4_decrement_only_main_loop (u nMain : Nat) (hu : 0 < u) :
    (blockOffsets u u).length = 1
    ∧ (emittedDecrements u nMain).length = nMain
    ∧ (∀ ph ∈ emittedDecrements u nMain, ph = Phase.MainLoop)
    ∧ loopCheckEnabled .Warmup = false
    ∧ loopCheckEnabled .Cooldown = false
    ∧ loopCheckEnabled .ShortLoop = false
    ∧ loopCheckEnabled .Remainder = false := by
  have hoff := blockOffsets_self u hu
  refine ⟨by rw [hoff]; rfl, ?_, ?_, rfl, rfl, rfl, rfl⟩
  · unfold emittedDecrements materializePhases
    simp only [List.flatMap_append, List.flatMap_cons, List.flatMap_nil,
      List.length_append, loopCheckEnabled]
    have hrep := replicate_flatMap_length nMain Phase.MainLoop
      (fun ph => if (ph == Phase.MainLoop) = true then
        (blockOffsets u u).map (fun _ => ph) else [])
    simp only [beq_self_eq_true, if_true, List.length_map, hoff] at hrep
    simp [hrep, hoff]
  · intro ph hph
    unfold emittedDecrements at hph
    rw [List.mem_flatMap] at hph
    obtain ⟨q, hq, hmem⟩ := hph
    by_cases hen : loopCheckEnabled q = true
    · rw [if_pos hen] at hmem
      obtain ⟨o, ho, rfl⟩ := List.mem_map.mp hmem
      have : q == Phase.MainLoop := hen
      exact eq_of_beq this
    · rw [if_neg hen] at hmem
      exact absurd hmem (List.not_mem_nil _)

/-- Witness for C4 at concrete inputs: unrollK = 8, three taken MainLoop
blocks give exactly three emitted decrements, all in MainLoop. -/
theorem c4_decrement_only_main_loop_witness :
    (emittedDecrements 8 3).length = 3
    ∧ loopCheckEnabled .Cooldown = false := by
  have h := c4_decrement_only_main_loop 8 3 (by decide)
  exact ⟨h.2.1, h.2.2.2.1⟩

/-! ## C1: coverage of the iteration space

The materializer's invocation set comes from loop_sequencer.hpp, which is
not among the sources under study, and is modelled from the spec
(sections 4.2-4.3, 8.1): an event of period `p` is invoked once per
period-aligned logical iteration below the trip count `T` — that is, at
the `(T + p - 1) / p` positions `0, p, 2p, ...` below `T`, the last one
possibly heading a partial chunk; the generic occurrence at iteration `h`
covers the `min p (T - h)` logical iterations `[h, min (h + p) T)`;
lookahead shifts only the emission position inside the instruction stream,
never the logical iteration; the invocation set is identical whether it is
materialized across Warmup + taken MainLoop blocks + Cooldown or
regenerated across ShortLoop alone.

The outer-product event is embedded from the source: its remainder test
(k_loop.cxx line 310), active op count (lines 57, 342) and firing condition
with coverage (lines 1039-1058) are taken from `kLoop` directly.  Unlike
the generic events, its firing covers a fixed `opCount` iterations with no
clamping at `T`, so when minOPCount does not divide `T` the final firing
pads coverage past the trip count; the remainder machinery (prezeroing and
remasking, C10) neutralizes those padded iterations numerically.
-/

/-- Modelled from the spec: logical invocation positions of a period-`p`
event for trip count `T` (loop_sequencer.hpp is not among the sources under
study; spec sections 4.2-4.3). -/
def eventOccurrences (p T : Nat) : List Nat :=
  (List.range ((T + p - 1) / p)).map (fun k => k * p)

/-- Modelled from the spec: total logical-iteration coverage of a period-`p`
event across all its invocations for trip count `T`; the invocation at
iteration `h = k * p` covers `min p (T - h)` iterations. -/
def eventCoverage (p T : Nat) : Nat :=
  (Finset.range ((T + p - 1) / p)).sum (fun k => min p (T - k * p))

/-- Remainder-active test for the outer product, from k_loop.cxx line 310:
`h.remaining() < opCountMain - (h % opCountMain)` with `remaining = T - h`. -/
def opRemActive (M T h : Nat) : Bool := T - h < M - h % M

/-- Active op count at iteration `h`, from k_loop.cxx line 342 with
`opCountRem = minOPCount` (line 57). -/
def opCount (m M T h : Nat) : Nat := if opRemActive M T h then m else M

/-- Firing condition of the outer-product event, from k_loop.cxx
lines 1040-1043: the action invoked at iteration `h` returns early unless
`h + minOPCount` is a multiple of the active op count. -/
def opFires (m M T h : Nat) : Bool := (h + m) % opCount m M T h == 0

/-- Total logical-iteration coverage of the outer-product event: it is
invoked at every multiple of `minOPCount` below `T` — all
`(T + minOPCount - 1) / minOPCount` of them, including the one heading a
final partial chunk (its `every(minOPCount)` requirement, k_loop.cxx
line 1033) — and each firing covers the active op count of iterations
(lines 1045-1058). -/
def opCoverageTotal (m M T : Nat) : Nat :=
  (Finset.range ((T + m - 1) / m)).sum
    (fun k => if opFires m M T (k * m) then opCount m M T (k * m) else 0)

/-- Helper: a generic event's coverage sums to the trip count. -/
theorem eventCoverage_eq (p : Nat) (hp : 0 < p) : ∀ T, eventCoverage p T = T := by
  intro T
  induction T using Nat.strong_induction_on with
  | _ T ih =>
    by_cases h0 : T = 0
    · subst h0
      unfold eventCoverage
      have hc : (0 + p - 1) / p = 0 := Nat.div_eq_of_lt (by omega)
      rw [hc]
      simp
    · by_cases hle : T ≤ p
      · have hc : (T + p - 1) / p = 1 :=
          Nat.div_eq_of_lt_le (by omega) (by omega)
        unfold eventCoverage
        rw [hc]
        rw [Finset.sum_range_one]
        omega
      · have hple : p < T := by omega
        have hc : (T + p - 1) / p = (T - p + p - 1) / p + 1 := by
          have h1 : T + p - 1 = (T - p + p - 1) + p := by omega
          rw [h1, Nat.add_div_right _ hp]
        unfold eventCoverage
        rw [hc, Finset.sum_range_succ']
        have hf0 : min p (T - 0 * p) = p := by
          simp
          omega
        have hfs : ∀ k, min p (T - (k + 1) * p) = min p ((T - p) - k * p) := by
          intro k
          have heq : T - (k + 1) * p = (T - p) - k * p := by
            have hkp : (k + 1) * p = k * p + p := by ring
            omega
          rw [heq]
        rw [hf0]
        have hsum : (Finset.range ((T - p + p - 1) / p)).sum (fun k => min p (T - (k + 1) * p))
            = (Finset.range ((T - p + p - 1) / p)).sum (fun k => min p ((T - p) - k * p)) :=
          Finset.sum_congr rfl (fun k _ => hfs k)
        rw [hsum]
        have hih := ih (T - p) (by omega)
        unfold eventCoverage at hih
        omega

/-- Helper: every invocation position of a generic event lies below the trip
count. -/
theorem eventOccurrences_lt (p T : Nat) (hp : 0 < p) :
    ∀ h ∈ eventOccurrences p T, h < T := by
  intro h hh
  unfold eventOccurrences at hh
  obtain ⟨k, hk, rfl⟩ := List.mem_map.mp hh
  have hk' : k < (T + p - 1) / p := List.mem_range.mp hk
  have h1 : (k + 1) * p ≤ ((T + p - 1) / p) * p := Nat.mul_le_mul_right p (by omega)
  have h2 : ((T + p - 1) / p) * p ≤ T + p - 1 := Nat.div_mul_le_self _ _
  have h3 : (k + 1) * p = k * p + p := by ring
  omega

/-- Helper: inside the last partial block every position is remainder-active. -/
theorem opRemActive_base (M T h : Nat) (hT : T < M) (hh : h < T) :
    opRemActive M T h = true := by
  unfold opRemActive
  rw [Nat.mod_eq_of_lt (show h < M by omega)]
  simp only [decide_eq_true_eq]
  omega

/-- Helper: with at least one whole block remaining, the first block's
positions are not remainder-active. -/
theorem opRemActive_main (M T h : Nat) (hT : M ≤ T) (hh : h < M) :
    opRemActive M T h = false := by
  unfold opRemActive
  rw [Nat.mod_eq_of_lt hh]
  simp only [decide_eq_false_iff_not]
  omega

/-- Helper: the remainder test is invariant under dropping one whole block. -/
theorem opRemActive_shift (M T' h' : Nat) :
    opRemActive M (M + T') (M + h') = opRemActive M T' h' := by
  unfold opRemActive
  rw [Nat.add_sub_add_left, Nat.add_mod_left]

/-- Helper: the active op count is invariant under dropping one whole block. -/
theorem opCount_shift (m M T' h' : Nat) :
    opCount m M (M + T') (M + h') = opCount m M T' h' := by
  unfold opCount
  rw [opRemActive_shift]

/-- Helper: the firing condition is invariant under dropping one whole block. -/
theorem opFires_shift (m M T' h' : Nat) (hdvd : m ∣ M) :
    opFires m M (M + T') (M + h') = opFires m M T' h' := by
  unfold opFires
  rw [opCount_shift]
  congr 1
  unfold opCount
  by_cases hr : opRemActive M T' h' = true
  · rw [if_pos hr]
    obtain ⟨c, rfl⟩ := hdvd
    rw [Nat.add_assoc, Nat.mul_add_mod]
  · rw [if_neg hr]
    rw [Nat.add_assoc, Nat.add_mod_left]

/-- Helper: every invocation position below the ceiling count sits below the
trip count. -/
theorem ceil_invocation_lt (m T k : Nat) (hm : 0 < m) (hk : k < (T + m - 1) / m) :
    k * m < T := by
  have h1 : (k + 1) * m ≤ ((T + m - 1) / m) * m := Nat.mul_le_mul_right m (by omega)
  have h2 : ((T + m - 1) / m) * m ≤ T + m - 1 := Nat.div_mul_le_self _ _
  have h3 : (k + 1) * m = k * m + m := by ring
  omega

/-- Helper: the trip count rounded up to a multiple of `m` is at least the
trip count. -/
theorem ceil_mul_ge (m T : Nat) (hm : 0 < m) : T ≤ m * ((T + m - 1) / m) := by
  have hdm := Nat.div_add_mod (T + m - 1) m
  have hr : (T + m - 1) % m < m := Nat.mod_lt _ hm
  omega

/-- Helper: coverage of the outer-product event over a final partial block:
every invocation is remainder-active and fires at op count minOPCount, so
the block's trip count is covered rounded up to a multiple of minOPCount. -/
theorem opCoverage_base_all (m M T : Nat) (hm : 0 < m) (hTM : T < M) :
    opCoverageTotal m M T = m * ((T + m - 1) / m) := by
  unfold opCoverageTotal
  have hterm : ∀ k ∈ Finset.range ((T + m - 1) / m),
      (if opFires m M T (k * m) then opCount m M T (k * m) else 0) = m := by
    intro k hk
    have hk' : k < (T + m - 1) / m := Finset.mem_range.mp hk
    have hkm : k * m < T := ceil_invocation_lt m T k hm hk'
    have hact : opRemActive M T (k * m) = true := opRemActive_base M T _ hTM hkm
    have hoc : opCount m M T (k * m) = m := by unfold opCount; rw [hact]; simp
    have hfire : opFires m M T (k * m) = true := by
      unfold opFires
      rw [hoc]
      have h4 : k * m + m = (k + 1) * m := by ring
      rw [h4, Nat.mul_mod_left]
      simp
    rw [hfire, hoc]
    simp
  rw [Finset.sum_congr rfl hterm, Finset.sum_const, Finset.card_range, smul_eq_mul,
    Nat.mul_comm]

/-- Helper: coverage of the outer-product event over one whole leading block:
only the invocation at its last position fires, covering the whole block. -/
theorem opSum_block (m M T : Nat) (hm : 0 < m) (c : Nat) (hc : M = m * c) (hc0 : 0 < c)
    (hT : M ≤ T) :
    (Finset.range c).sum
      (fun k => if opFires m M T (k * m) then opCount m M T (k * m) else 0) = M := by
  have hcm : c * m = M := by rw [hc, Nat.mul_comm]
  have hsub : (c - 1) * m = c * m - m := by rw [Nat.sub_mul, one_mul]
  have hmM : m ≤ M := by
    rw [hc]
    exact Nat.le_mul_of_pos_right m hc0
  have hmem : c - 1 ∈ Finset.range c := Finset.mem_range.mpr (by omega)
  have hzero : ∀ b ∈ Finset.range c, b ≠ c - 1 →
      (if opFires m M T (b * m) then opCount m M T (b * m) else 0) = 0 := by
    intro b hb hne
    have hb' : b < c := Finset.mem_range.mp hb
    have hb2 : b + 1 ≤ c - 1 := by omega
    have hlt : (b + 1) * m ≤ (c - 1) * m := Nat.mul_le_mul_right m hb2
    have hltM : (b + 1) * m < M := by omega
    have hbm : b * m < M := by
      have hmono : b * m ≤ (b + 1) * m := Nat.mul_le_mul_right m (by omega)
      omega
    have hact : opRemActive M T (b * m) = false := opRemActive_main M T _ hT hbm
    have hoc : opCount m M T (b * m) = M := by unfold opCount; rw [hact]; simp
    have hfire : opFires m M T (b * m) = false := by
      unfold opFires
      rw [hoc]
      have h4 : b * m + m = (b + 1) * m := by ring
      rw [h4, Nat.mod_eq_of_lt hltM]
      have hpos : 0 < (b + 1) * m := Nat.mul_pos (by omega) hm
      simp
      omega
    rw [hfire]
    simp
  rw [Finset.sum_eq_single_of_mem (c - 1) hmem hzero]
  have hlast : (c - 1) * m + m = M := by omega
  have hact : opRemActive M T ((c - 1) * m) = false := by
    apply opRemActive_main M T _ hT
    omega
  have hoc : opCount m M T ((c - 1) * m) = M := by unfold opCount; rw [hact]; simp
  have hfire : opFires m M T ((c - 1) * m) = true := by
    unfold opFires
    rw [hoc, hlast, Nat.mod_self]
    simp
  rw [hfire, hoc]
  simp

/-- Helper: the outer-product event's coverage sums to the trip count
rounded up to the next multiple of minOPCount, for every trip count. -/
theorem opCoverageTotal_all (m M : Nat) (hm : 0 < m) (hM : 0 < M) (hdvd : m ∣ M) :
    ∀ T, opCoverageTotal m M T = m * ((T + m - 1) / m) := by
  obtain ⟨c, hc⟩ := hdvd
  have hc0 : 0 < c := by
    rcases Nat.eq_zero_or_pos c with h | h
    · rw [h, Nat.mul_zero] at hc
      omega
    · exact h
  intro T
  induction T using Nat.strong_induction_on with
  | _ T ih =>
    by_cases hTM : T < M
    · exact opCoverage_base_all m M T hm hTM
    · have hMT : M ≤ T := by omega
      have hTeq : T = M + (T - M) := by omega
      have hsplit : (T + m - 1) / m = c + ((T - M) + m - 1) / m := by
        have h1 : T + m - 1 = m * c + ((T - M) + m - 1) := by omega
        conv_lhs => rw [h1]
        rw [Nat.mul_add_div hm]
      unfold opCoverageTotal
      rw [hsplit, Finset.sum_range_add]
      have hblock : (Finset.range c).sum
          (fun k => if opFires m M T (k * m) then opCount m M T (k * m) else 0) = M :=
        opSum_block m M T hm c hc hc0 hMT
      have htail : (Finset.range (((T - M) + m - 1) / m)).sum
          (fun k => if opFires m M T ((c + k) * m) then opCount m M T ((c + k) * m) else 0)
          = opCoverageTotal m M (T - M) := by
        apply Finset.sum_congr rfl
        intro k hk
        have hidx : (c + k) * m = M + k * m := by
          rw [Nat.add_mul, hc, Nat.mul_comm]
        rw [hidx]
        conv_lhs => rw [hTeq]
        rw [opFires_shift m M (T - M) (k * m) ⟨c, hc⟩, opCount_shift]
      rw [hblock, htail, ih (T - M) (by omega)]
      rw [Nat.mul_add]
      omega

/-- Helper: for a trip count divisible by minOPCount the outer-product
coverage is exactly the trip count. -/
theorem opCoverageTotal_of_dvd (m M T : Nat) (hm : 0 < m) (hM : 0 < M) (hdvd : m ∣ M)
    (hT : m ∣ T) : opCoverageTotal m M T = T := by
  rw [opCoverageTotal_all m M hm hM hdvd T]
  obtain ⟨q, rfl⟩ := hT
  have h1 : (m * q + m - 1) / m = q + (m - 1) / m := by
    have h2 : m * q + m - 1 = m * q + (m - 1) := by omega
    rw [h2, Nat.mul_add_div hm]
  rw [h1, Nat.div_eq_of_lt (by omega), Nat.add_zero]

/-- Helper: a firing of the outer-product event covers the interval
`[k*m + m - opCount, k*m + m)`, which lies inside the padded iteration
space `[0, m * ceil(T/m))`. -/
theorem opFires_bounds_all (m M T : Nat) (hm : 0 < m) (k : Nat)
    (hk : k < (T + m - 1) / m) (hf : opFires m M T (k * m) = true) :
    opCount m M T (k * m) ≤ k * m + m ∧ k * m + m ≤ m * ((T + m - 1) / m) := by
  constructor
  · by_cases hr : opRemActive M T (k * m) = true
    · unfold opCount
      rw [if_pos hr]
      omega
    · have hoc : opCount m M T (k * m) = M := by unfold opCount; rw [if_neg hr]
      unfold opFires at hf
      rw [hoc] at hf ⊢
      have hmod : (k * m + m) % M = 0 := by simpa using hf
      exact Nat.le_of_dvd (by omega) (Nat.dvd_of_mod_eq_zero hmod)
  · have h1 : (k + 1) * m ≤ ((T + m - 1) / m) * m := Nat.mul_le_mul_right m (by omega)
    have h3 : (k + 1) * m = k * m + m := by ring
    have h4 : ((T + m - 1) / m) * m = m * ((T + m - 1) / m) := Nat.mul_comm _ _
    omega

/-- Helper: when minOPCount does not divide the trip count, the final
outer-product invocation — at a logical iteration below the trip count —
is remainder-active, fires, and its covered interval reaches past the trip
count. -/
theorem opFires_last_partial (m M T : Nat) (hm : 0 < m) (hM : 0 < M) (hdvd : m ∣ M)
    (hndvd : ¬ m ∣ T) :
    opFires m M T (((T + m - 1) / m - 1) * m) = true
    ∧ ((T + m - 1) / m - 1) * m < T
    ∧ T < ((T + m - 1) / m - 1) * m + m := by
  obtain ⟨c, hc⟩ := hdvd
  have hc0 : 0 < c := by
    rcases Nat.eq_zero_or_pos c with h | h
    · rw [h, Nat.mul_zero] at hc
      omega
    · exact h
  have hT0 : T ≠ 0 := by
    intro h
    exact hndvd (h ▸ dvd_zero m)
  have hN1 : 1 ≤ (T + m - 1) / m := by
    rw [Nat.le_div_iff_mul_le hm]
    omega
  have hlt : ((T + m - 1) / m - 1) * m < T :=
    ceil_invocation_lt m T _ hm (by omega)
  have hle : T ≤ m * ((T + m - 1) / m) := ceil_mul_ge m T hm
  have hne : T ≠ m * ((T + m - 1) / m) := by
    intro h
    exact hndvd ⟨(T + m - 1) / m, h⟩
  have hNm : ((T + m - 1) / m - 1) * m + m = m * ((T + m - 1) / m) := by
    have h6 : ((T + m - 1) / m - 1) * m = ((T + m - 1) / m) * m - m := by
      rw [Nat.sub_mul, one_mul]
    have h7 : m ≤ ((T + m - 1) / m) * m := by
      have h7a := Nat.mul_le_mul_right m hN1
      omega
    have h8 : ((T + m - 1) / m) * m = m * ((T + m - 1) / m) := Nat.mul_comm _ _
    omega
  refine ⟨?_, hlt, by omega⟩
  have hmodM : (((T + m - 1) / m - 1) * m) % M = m * (((T + m - 1) / m - 1) % c) := by
    rw [hc, Nat.mul_comm ((T + m - 1) / m - 1) m, Nat.mul_mod_mul_left]
  have hmc : ((T + m - 1) / m - 1) % c < c := Nat.mod_lt _ hc0
  have hbound : m * (((T + m - 1) / m - 1) % c) + m ≤ m * c := by
    have h9 : ((T + m - 1) / m - 1) % c + 1 ≤ c := by omega
    have h10 := Nat.mul_le_mul_left m h9
    rw [Nat.mul_add, Nat.mul_one] at h10
    exact h10
  have hact : opRemActive M T (((T + m - 1) / m - 1) * m) = true := by
    unfold opRemActive
    simp only [decide_eq_true_eq]
    rw [hmodM]
    omega
  have hoc : opCount m M T (((T + m - 1) / m - 1) * m) = m := by
    unfold opCount
    rw [hact]
    simp
  unfold opFires
  rw [hoc, hNm, Nat.mul_mod_right]
  simp

/-- C1 counterexample: with minOPCount = 4, opCountMain = 8 and trip count
T = 10, the outer-product event's total logical-iteration coverage is 12,
not 10, and its final firing — invoked at logical iteration 8, below T —
has active op count 4 and covers the iterations 8..11, reaching the indices
10 and 11 at and beyond T; so the coverage does not sum to exactly T and
iterations with logical index >= T are covered. -/
theorem c1_counterexample_partial_chunk_coverage :
    opCoverageTotal 4 8 10 = 12
    ∧ opCoverageTotal 4 8 10 ≠ 10
    ∧ opFires 4 8 10 8 = true
    ∧ opCount 4 8 10 8 = 4
    ∧ (10 : Nat) < 8 + 4 :=
  ⟨by decide, by decide, by decide, by decide, by decide⟩

/-- C1 amended: each generic event's logical-iteration coverage sums to
exactly the trip count with no invocation at a logical index at or beyond
it, for every trip count; the outer-product event fires at iteration h
exactly when h + minOPCount is a multiple of the active op count and covers
opCount(h) iterations per firing, but its total coverage is the trip count
rounded up to the next multiple of minOPCount — equal to the trip count
exactly when minOPCount divides it; when it does not, the final firing
(invoked below the trip count) covers logical indices at and beyond it,
padding handled by remainder prezeroing/remasking, and all coverage stays
inside the padded space `[0, minOPCount * ceil(T / minOPCount))`. -/
theorem c1_amended_event_coverage (p T' m M T : Nat) (hp : 0 < p) (hm : 0 < m)
    (hM : 0 < M) (hdvdM : m ∣ M) :
    eventCoverage p T' = T'
    ∧ (∀ h ∈ eventOccurrences p T', h < T')
    ∧ opCoverageTotal m M T = m * ((T + m - 1) / m)
    ∧ (m ∣ T → opCoverageTotal m M T = T)
    ∧ (∀ k, k < (T + m - 1) / m → opFires m M T (k * m) = true →
        opCount m M T (k * m) ≤ k * m + m ∧ k * m + m ≤ m * ((T + m - 1) / m))
    ∧ (¬ m ∣ T →
        opFires m M T (((T + m - 1) / m - 1) * m) = true
        ∧ ((T + m - 1) / m - 1) * m < T
        ∧ T < ((T + m - 1) / m - 1) * m + m)
    ∧ (∀ h, opFires m M T h = true ↔ (h + m) % opCount m M T h = 0) :=
  ⟨eventCoverage_eq p hp T',
   eventOccurrences_lt p T' hp,
   opCoverageTotal_all m M hm hM hdvdM T,
   fun hT => opCoverageTotal_of_dvd m M T hm hM hdvdM hT,
   fun k hk hf => opFires_bounds_all m M T hm k hk hf,
   fun hndvd => opFires_last_partial m M T hm hM hdvdM hndvd,
   fun h => by unfold opFires; simp⟩

/-- Witness for the amended C1 at concrete inputs: a period-3 event over trip
count 10 covers exactly 10 iterations; the outer-product event with
minOPCount = 4, opCountMain = 8 covers exactly 20 over trip count 20, and
over trip count 10 covers 4 * ceil(10/4) = 12, its final firing sitting at
iteration 8 < 10 and reaching past 10. -/
theorem c1_amended_event_coverage_witness :
    eventCoverage 3 10 = 10
    ∧ opCoverageTotal 4 8 20 = 20
    ∧ opCoverageTotal 4 8 10 = 4 * ((10 + 4 - 1) / 4)
    ∧ (opFires 4 8 10 (((10 + 4 - 1) / 4 - 1) * 4) = true
        ∧ ((10 + 4 - 1) / 4 - 1) * 4 < 10
        ∧ 10 < ((10 + 4 - 1) / 4 - 1) * 4 + 4) := by
  have h10 := c1_amended_event_coverage 3 10 4 8 10 (by decide) (by decide)
    (by decide) (by decide)
  have h20 := c1_amended_event_coverage 3 10 4 8 20 (by decide) (by decide)
    (by decide) (by decide)
  exact ⟨h10.1, h20.2.2.2.1 (by decide), h10.2.2.1, h10.2.2.2.2.2.1 (by decide)⟩

end KLoopVerif
